import Mathlib

/-!
# Verification of the morphological-analyzer summary/aggregation pipeline

Shallow embedding of `src/server.js` (Express server performing Japanese
morphological analysis of web pages).  JavaScript numbers are modelled as `ℚ`
(`toFixed(n)` followed by `parseFloat` becomes rounding to `n` decimal places,
ties towards `+∞`, exactly ECMA's rule for the nonnegative values arising
here).  JavaScript objects used as string-keyed dictionaries are modelled as
association lists in insertion order, which matches `Object.entries` iteration
order for the non-numeric string keys produced by the tokenizer.  `Set` is
modelled as a duplicate-free list in insertion order.  `Array.prototype.sort`
with a consistent comparator is (per ES2019 stability) the unique stable sort,
modelled by `List.insertionSort`.  The external collaborators (page fetcher,
kuromoji tokenizer) are passed in as function parameters.
-/

namespace MorphAnalyzer

/-- `toFixed(2)` + `parseFloat` on a nonnegative JS number: round to 2 decimal
places, ties towards `+∞`. -/
def round2 (q : ℚ) : ℚ := ((round (q * 100) : ℤ) : ℚ) / 100

/-- `toFixed(1)` + `parseFloat` on a nonnegative JS number: round to 1 decimal
place, ties towards `+∞`. -/
def round1 (q : ℚ) : ℚ := ((round (q * 10) : ℤ) : ℚ) / 10

/-- `parseFloat(((chars / len) * 100).toFixed(2))` as an exact integer count
of hundredths of a percent (the value times 100; lossless, since a 2-decimal
string is an integer number of hundredths): the rounding of
`chars / len * 10000` to the nearest integer with ties towards `+∞`,
written with natural division.  By the convention of natural division the
result at `len = 0` is `0`. -/
def pct2 (chars len : Nat) : Nat := (20000 * chars + len) / (2 * len)

/-- `parseFloat(((num / den) * 100).toFixed(1))` as an exact integer count of
tenths of a percent (the value times 10): the rounding of `num / den * 1000`
to the nearest integer with ties towards `+∞`. -/
def pct1 (num den : Nat) : Nat := (2000 * num + den) / (2 * den)

/-- A morpheme record as produced by the tokenizer and re-shaped by the server
(`token.surface_form` ↦ `surface`, `token.pos` ↦ `pos`, …).  Only `surface`
and `pos` drive the summary logic; the remaining fields are carried through. -/
structure Token where
  surface : String
  pos : String
  posDetail1 : String := ""
  posDetail2 : String := ""
  posDetail3 : String := ""
  baseForm : String := ""
  reading : String := ""
  pronunciation : String := ""
deriving DecidableEq, Repr

/-- One entry of a per-text `topWords` list (server.js lines 340-349).
`percentage` is the JS number scaled by 100 (hundredths of a percent). -/
structure TopWord where
  word : String
  count : Nat
  totalChars : Nat
  percentage : Nat
deriving DecidableEq, Repr

/-- A per-text summary as returned by `generateSummary` (server.js 322-355). -/
structure Summary where
  posCount : List (String × Nat)
  topWords : List TopWord
deriving DecidableEq, Repr

/-- Upsert into a JS-object-as-dictionary: if the key is present, update its
value with `f`; otherwise append `(k, f d)` (insertion order preserved). -/
def upsert (k : String) (d : V) (f : V → V) : List (String × V) → List (String × V)
  | [] => [(k, f d)]
  | (k', v) :: rest => if k' = k then (k', f v) :: rest else (k', v) :: upsert k d f rest

/-- `posCount[token.pos] = (posCount[token.pos] || 0) + 1` over all tokens. -/
def buildPosCount (tokens : List Token) : List (String × Nat) :=
  tokens.foldl (fun m t => upsert t.pos 0 (· + 1) m) []

/-- Whether a token passes the noun filter of server.js line 331:
`token.pos === '名詞' && token.surface_form.length > 1`. -/
def isCountedNoun (t : Token) : Bool :=
  t.pos = "名詞" && decide (1 < t.surface.length)

/-- `wordFreq[surface] = (wordFreq[surface] || 0) + 1` over the filtered
tokens (server.js lines 330-333). -/
def buildWordFreq (tokens : List Token) : List (String × Nat) :=
  tokens.foldl (fun m t => if isCountedNoun t then upsert t.surface 0 (· + 1) m else m) []

/-- The comparator of server.js line 338 (`(a, b) => b[1] - a[1]`), read as
"`a` may precede `b`": descending by count. -/
def countGE (a b : String × Nat) : Prop := b.2 ≤ a.2

instance : DecidableRel countGE := fun a b => inferInstanceAs (Decidable (b.2 ≤ a.2))

instance : IsTotal (String × Nat) countGE := ⟨fun a b => Nat.le_total b.2 a.2⟩

instance : IsTrans (String × Nat) countGE := ⟨fun _ _ _ h1 h2 => Nat.le_trans h2 h1⟩

/-- `generateSummary` (server.js 322-355): part-of-speech counts, plus the top
10 nouns by descending frequency with character totals and percentage of the
source text length. -/
def generateSummary (tokens : List Token) (totalTextLength : Nat) : Summary :=
  { posCount := buildPosCount tokens
    topWords :=
      ((List.insertionSort countGE (buildWordFreq tokens)).take 10).map fun p =>
        { word := p.1
          count := p.2
          totalChars := p.1.length * p.2
          percentage := pct2 (p.1.length * p.2) totalTextLength }
  }

/-! ## Request handlers: data shapes (server.js 91-319) -/

/-- The text regions extracted by `fetchWebPage` (server.js 78-84).  The
returned object's `text` field is an alias of `body` (line 83), so it is not
repeated here; `pd.body` stands for both `pageData.body` and `pageData.text`. -/
structure PageData where
  title : String
  h1 : String
  h2 : String
  body : String
deriving DecidableEq, Repr

/-- The summary object produced by `analyzeTag` (server.js 111-127 / 226-242).
Its empty-text branch returns `{ tokens: [], summary: { topWords: [] } }`, an
object with *no* `posCount` key, hence `posCount` is optional here. -/
structure TagSummary where
  posCount : Option (List (String × Nat))
  topWords : List TopWord
deriving DecidableEq, Repr

/-- Lift a `generateSummary` result to the (optional-`posCount`) shape of the
non-empty branch of `analyzeTag`. -/
def TagSummary.ofSummary (s : Summary) : TagSummary :=
  { posCount := some s.posCount, topWords := s.topWords }

/-- Result of `analyzeTag`: the mapped token list and the summary. -/
structure TagAnalysis where
  tokens : List Token
  summary : TagSummary
deriving DecidableEq, Repr

/-- `analyzeTag` (server.js 111-127 and identically 226-242): empty text (the
only falsy string) short-circuits to `{ tokens: [], summary: { topWords: [] } }`
without calling the tokenizer; otherwise tokenize and summarize. -/
def analyzeTag (tokenize : String → List Token) (text : String) : TagAnalysis :=
  if text = "" then { tokens := [], summary := { posCount := none, topWords := [] } }
  else
    { tokens := tokenize text
      summary := TagSummary.ofSummary (generateSummary (tokenize text) text.length) }

/-- One `byTag` entry of a page result (server.js 158-181 / 272-295). -/
structure TagData where
  text : String
  textLength : Nat
  tokenCount : Nat
  summary : TagSummary
deriving DecidableEq, Repr

/-- The four regions of a page. -/
inductive Tag where
  | title
  | h1
  | h2
  | body
deriving DecidableEq, Repr

/-- A page result: the object built at server.js 139-183 (single URL) and,
with the same shape, pushed at 253-297 (multi URL). -/
structure PageResult where
  url : String
  title : String
  bodyText : String
  textLength : Nat
  tokenCount : Nat
  tokens : List Token
  summary : Summary
  byTitle : TagData
  byH1 : TagData
  byH2 : TagData
  byBody : TagData
deriving DecidableEq, Repr

/-- Accessor mirroring `result.byTag[tagName]`. -/
def PageResult.byTag (r : PageResult) : Tag → TagData
  | .title => r.byTitle
  | .h1 => r.byH1
  | .h2 => r.byH2
  | .body => r.byBody

/-- Build one region's `byTag` entry (server.js 158-163 etc.): the region
text, its length, its token count, and its summary. -/
def mkTagData (tokenize : String → List Token) (text : String) : TagData :=
  { text := text
    textLength := text.length
    tokenCount := (analyzeTag tokenize text).tokens.length
    summary := (analyzeTag tokenize text).summary }

/-- Assemble the page-result object of server.js 139-183 / 253-297.  The
whole-page token list is `tokenize(pageData.text)` with `text = body`, and
the returned `tokens` array is the full mapped list (there is no truncation
in the source). -/
def buildPageResult (tokenize : String → List Token) (url : String) (pd : PageData) :
    PageResult :=
  { url := url
    title := pd.title
    bodyText := pd.body
    textLength := pd.body.length
    tokenCount := (tokenize pd.body).length
    tokens := tokenize pd.body
    summary := generateSummary (tokenize pd.body) pd.body.length
    byTitle := mkTagData tokenize pd.title
    byH1 := mkTagData tokenize pd.h1
    byH2 := mkTagData tokenize pd.h2
    byBody := mkTagData tokenize pd.body }

/-- `url.startsWith('http://') || url.startsWith('https://')`
(server.js 100 / 216), via the character lists of the strings. -/
def hasHttpScheme (url : String) : Bool :=
  "http://".data.isPrefixOf url.data || "https://".data.isPrefixOf url.data

/-- Response of `POST /api/analyze` (server.js 91-190). -/
inductive AnalyzeResp where
  | badRequest (msg : String)
  | serverError (msg : String)
  | ok (result : PageResult)
deriving DecidableEq, Repr

/-- The `POST /api/analyze` handler (server.js 91-190).  `fetch` stands for
`fetchWebPage` (black box: either page data or a thrown error message);
`tokenize` for the shared kuromoji tokenizer.  `url?` is the request body's
`url` field; `none` and the empty string are the falsy values reaching the
`!url` check. -/
def analyze (fetch : String → Except String PageData) (tokenize : String → List Token)
    (urlField : Option String) : AnalyzeResp :=
  match urlField with
  | none => .badRequest "URLが指定されていません"
  | some url =>
    if url = "" then .badRequest "URLが指定されていません"
    else if ¬ hasHttpScheme url then .badRequest "有効なURLを入力してください"
    else
      match fetch url with
      | .error msg => .serverError msg
      | .ok pd => .ok (buildPageResult tokenize url pd)

/-- One entry of the multi-URL `errors` list (server.js 217 / 299). -/
structure UrlError where
  url : String
  error : String
deriving DecidableEq, Repr

/-- `urls[i].trim()` (server.js 213): strip leading and trailing whitespace. -/
def trimStr (s : String) : String :=
  ⟨(((s.data.dropWhile Char.isWhitespace).reverse.dropWhile Char.isWhitespace).reverse)⟩

/-- One iteration of the per-URL loop of server.js 212-301: the URL is
trimmed, then either rejected by the scheme check (error entry), or fetched;
a fetch failure is caught as an error entry, a success is analyzed into a
page result appended to the successes. -/
def multiStep (fetch : String → Except String PageData) (tokenize : String → List Token)
    (acc : List PageResult × List UrlError) (rawUrl : String) :
    List PageResult × List UrlError :=
  let url := trimStr rawUrl
  if ¬ hasHttpScheme url then
    (acc.1, acc.2 ++ [{ url := url, error := "無効なURL形式" }])
  else
    match fetch url with
    | .error msg => (acc.1, acc.2 ++ [{ url := url, error := msg }])
    | .ok pd => (acc.1 ++ [buildPageResult tokenize url pd], acc.2)

/-- The sequential per-URL loop of server.js 212-301.  No failure aborts the
remaining URLs: every URL goes through `multiStep`. -/
def processUrls (fetch : String → Except String PageData) (tokenize : String → List Token)
    (urls : List String) : List PageResult × List UrlError :=
  urls.foldl (multiStep fetch tokenize) ([], [])

/-! ## Cross-page aggregation (server.js 358-490) -/

/-- Value stored per word in the aggregation dictionaries: an occurrence
count and the `Set` of URLs, modelled as a duplicate-free list in insertion
order (`sites.size` becomes `sites.length`). -/
structure WordAgg where
  count : Nat
  sites : List String
deriving DecidableEq, Repr

/-- `sites.add(url)` on a JS `Set`. -/
def addSite (sites : List String) (u : String) : List String :=
  if u ∈ sites then sites else sites ++ [u]

/-- The accumulation step shared by server.js 381-390 and 400-409: create the
`{count: 0, sites: new Set()}` entry if absent, then add `c` to the count and
the URL to the site set. -/
def bumpWord (m : List (String × WordAgg)) (k : String) (u : String) (c : Nat) :
    List (String × WordAgg) :=
  upsert k { count := 0, sites := [] }
    (fun v => { count := v.count + c, sites := addSite v.sites u }) m

/-- The overall `wordFreq` dictionary (server.js 379-391): every noun token of
every result's full token list, filtered exactly like the per-text summary. -/
def aggWordFreq (results : List PageResult) : List (String × WordAgg) :=
  results.foldl
    (fun m r =>
      r.tokens.foldl
        (fun m' t => if isCountedNoun t then bumpWord m' t.surface r.url 1 else m') m)
    []

/-- The per-region `tagWordFreq[tagName]` dictionary (server.js 394-412): the
candidates come from each page's already-computed region `topWords` list, and
each contributes the count recorded in that entry.  (The source's existence
guards on `byTag`, `summary` and `topWords` always hold for the objects built
by the handlers, so they have no branch here.) -/
def tagWordFreq (results : List PageResult) (tag : Tag) : List (String × WordAgg) :=
  results.foldl
    (fun m r =>
      (r.byTag tag).summary.topWords.foldl
        (fun m' w => bumpWord m' w.word r.url w.count) m)
    []

/-- `totalTextLength += result.textLength` over all results (server.js 376). -/
def totalTextLen (results : List PageResult) : Nat :=
  results.foldl (fun acc r => acc + r.textLength) 0

/-- `tagTextLength[tagName] += result.byTag[tagName].textLength`
(server.js 396). -/
def tagTextLen (results : List PageResult) (tag : Tag) : Nat :=
  results.foldl (fun acc r => acc + (r.byTag tag).textLength) 0

/-- The comparator of server.js 417-424 and 443-448, read as "`a` may precede
`b`": descending by `sites.size`, ties broken by descending `count`. -/
def siteCountGE (a b : String × WordAgg) : Prop :=
  b.2.sites.length < a.2.sites.length ∨
    (b.2.sites.length = a.2.sites.length ∧ b.2.count ≤ a.2.count)

instance : DecidableRel siteCountGE := fun a b =>
  inferInstanceAs (Decidable (_ ∨ _))

instance : IsTotal (String × WordAgg) siteCountGE :=
  ⟨fun a b => by
    rcases Nat.lt_trichotomy a.2.sites.length b.2.sites.length with h | h | h
    · exact Or.inr (Or.inl h)
    · rcases Nat.le_total b.2.count a.2.count with hc | hc
      · exact Or.inl (Or.inr ⟨h.symm, hc⟩)
      · exact Or.inr (Or.inr ⟨h, hc⟩)
    · exact Or.inl (Or.inl h)⟩

instance : IsTrans (String × WordAgg) siteCountGE :=
  ⟨fun a b c hab hbc => by
    rcases hab with h1 | ⟨e1, c1⟩
    · rcases hbc with h2 | ⟨e2, _⟩
      · exact Or.inl (Nat.lt_trans h2 h1)
      · exact Or.inl (e2 ▸ h1)
    · rcases hbc with h2 | ⟨e2, c2⟩
      · exact Or.inl (e1 ▸ h2)
      · exact Or.inr ⟨e2.trans e1, Nat.le_trans c2 c1⟩⟩

/-- One entry of an aggregated `topWords` list (server.js 426-438, 450-464).
`sitePercentage` is the JS number scaled by 10 (tenths of a percent) and
`percentage` the JS number scaled by 100 (hundredths of a percent). -/
structure AggWord where
  word : String
  count : Nat
  siteCount : Nat
  sitePercentage : Nat
  totalChars : Nat
  percentage : Nat
deriving DecidableEq, Repr

/-- The overall aggregated top-20 (server.js 416-438): sort by site count then
count, keep 20, and decorate with `totalChars`, `percentage` (against the
overall total text length, no zero guard in the source) and `sitePercentage`
(against the number of pages). -/
def aggTopWords (results : List PageResult) : List AggWord :=
  ((List.insertionSort siteCountGE (aggWordFreq results)).take 20).map fun p =>
    { word := p.1
      count := p.2.count
      siteCount := p.2.sites.length
      sitePercentage := pct1 p.2.sites.length results.length
      totalChars := p.1.length * p.2.count
      percentage := pct2 (p.1.length * p.2.count) (totalTextLen results) }

/-- `generateTagTopWords` (server.js 441-465): like `aggTopWords` but over the
region dictionary, with the region's summed text length as denominator and an
explicit `'0.00'` guard when that denominator is `0`. -/
def generateTagTopWords (results : List PageResult) (tag : Tag) : List AggWord :=
  ((List.insertionSort siteCountGE (tagWordFreq results tag)).take 20).map fun p =>
    { word := p.1
      count := p.2.count
      siteCount := p.2.sites.length
      sitePercentage := pct1 p.2.sites.length results.length
      totalChars := p.1.length * p.2.count
      percentage :=
        if 0 < tagTextLen results tag then
          pct2 (p.1.length * p.2.count) (tagTextLen results tag)
        else 0 }

/-- One `byTag` entry of the aggregated summary (server.js 472-487). -/
structure TagAggregate where
  totalTextLength : Nat
  topWords : List AggWord
deriving DecidableEq, Repr

/-- The aggregated summary object (server.js 467-489). -/
structure AggregatedSummary where
  totalSites : Nat
  totalTextLength : Nat
  topWords : List AggWord
  byTitle : TagAggregate
  byH1 : TagAggregate
  byH2 : TagAggregate
  byBody : TagAggregate
deriving DecidableEq, Repr

/-- Accessor mirroring `aggregatedSummary.byTag[tagName]`. -/
def AggregatedSummary.byTag (s : AggregatedSummary) : Tag → TagAggregate
  | .title => s.byTitle
  | .h1 => s.byH1
  | .h2 => s.byH2
  | .body => s.byBody

/-- `generateAggregatedSummary` (server.js 358-490). -/
def generateAggregatedSummary (results : List PageResult) : AggregatedSummary :=
  { totalSites := results.length
    totalTextLength := totalTextLen results
    topWords := aggTopWords results
    byTitle := { totalTextLength := tagTextLen results .title
                 topWords := generateTagTopWords results .title }
    byH1 := { totalTextLength := tagTextLen results .h1
              topWords := generateTagTopWords results .h1 }
    byH2 := { totalTextLength := tagTextLen results .h2
              topWords := generateTagTopWords results .h2 }
    byBody := { totalTextLength := tagTextLen results .body
                topWords := generateTagTopWords results .body } }

/-! ## The multi-URL handler (server.js 193-319) -/

/-- The request body's `urls` field as seen by the validation at
server.js 197-203: a falsy value, a truthy non-array, or an array of
strings. -/
inductive UrlsField where
  | missing
  | notArray
  | arr (urls : List String)

/-- Successful response body of `POST /api/analyze-multiple`
(server.js 306-314). -/
structure MultiResult where
  success : Bool
  totalUrls : Nat
  successCount : Nat
  errorCount : Nat
  results : List PageResult
  errors : List UrlError
  aggregatedSummary : AggregatedSummary
deriving Repr

/-- Response of `POST /api/analyze-multiple`. -/
inductive MultiResp where
  | badRequest (msg : String)
  | ok (resp : MultiResult)
deriving Repr

/-- The `POST /api/analyze-multiple` handler (server.js 193-319): list-level
validation, the sequential per-URL loop, then the aggregated summary over the
successful results only. -/
def analyzeMultiple (fetch : String → Except String PageData)
    (tokenize : String → List Token) (urlsField : UrlsField) : MultiResp :=
  match urlsField with
  | .missing => .badRequest "URLリストが指定されていません"
  | .notArray => .badRequest "URLリストが指定されていません"
  | .arr urls =>
    if urls.length = 0 then .badRequest "URLリストが指定されていません"
    else if 20 < urls.length then .badRequest "URLは最大20件までです"
    else
      let pr := processUrls fetch tokenize urls
      .ok { success := true
            totalUrls := urls.length
            successCount := pr.1.length
            errorCount := pr.2.length
            results := pr.1
            errors := pr.2
            aggregatedSummary := generateAggregatedSummary pr.1 }

/-- Dictionary read-out (`wordFreq[k]`): the value stored under the first
occurrence of `k`, or the fresh `{count: 0, sites: ∅}` default. -/
def getWord : List (String × WordAgg) → String → WordAgg
  | [], _ => { count := 0, sites := [] }
  | p :: rest, k => if p.1 = k then p.2 else getWord rest k

/-! ## Concrete material used by the witnesses -/

/-- A noun token with the given surface form. -/
def nounTok (s : String) : Token :=
  { surface := s, pos := "名詞" }

/-- A tokenizer oracle that always returns the noun 解析 twice. -/
def tokenizeW : String → List Token :=
  fun _ => [nounTok "解析", nounTok "解析"]

/-- A concrete page result: every region text is 解析解析 (4 characters). -/
def pageW : PageResult :=
  buildPageResult tokenizeW "http://a"
    { title := "解析解析", h1 := "解析解析", h2 := "解析解析", body := "解析解析" }

/-- The aggregated entry produced for 解析 from `[pageW]`: 100.0% of sites
(`sitePercentage` in tenths) and 100.00% of the text (`percentage` in
hundredths). -/
def aggWordW : AggWord :=
  { word := "解析", count := 2, siteCount := 1, sitePercentage := 1000,
    totalChars := 4, percentage := 10000 }

/-- The single topWords entry of `generateSummary [nounTok 解析] 4`:
one occurrence, 2 characters, 50.00% of a 4-character text. -/
def topWordW : TopWord :=
  { word := "解析", count := 1, totalChars := 2, percentage := 5000 }

/-- A fetch oracle succeeding with a fixed 3-character body. -/
def capFetch : String → Except String PageData :=
  fun _ => Except.ok { title := "", h1 := "", h2 := "", body := "テスト" }

/-- A tokenizer oracle returning 101 noun tokens for any text. -/
def capTokenize : String → List Token :=
  fun _ => List.replicate 101 (nounTok "解析")

/-- A fetch oracle that always fails. -/
def fetchErr : String → Except String PageData :=
  fun _ => Except.error "接続失敗"

/-- Twenty distinct two-character noun surfaces. -/
def wordsA : List String :=
  ["aa", "ab", "ac", "ad", "ae", "af", "ag", "ah", "ai", "aj",
   "ak", "al", "am", "an", "ao", "ap", "aq", "ar", "as", "at"]

/-- A tokenizer oracle producing one token per surface in `wordsA`. -/
def tokA : String → List Token := fun _ => wordsA.map nounTok

/-- A page whose tokens are the twenty nouns of `wordsA`, once each. -/
def pageA : PageResult :=
  buildPageResult tokA "http://a" { title := "", h1 := "", h2 := "", body := "あ" }

/-- A tokenizer oracle producing the single noun `zz`. -/
def tokB : String → List Token := fun _ => [nounTok "zz"]

/-- A page whose only token is the noun `zz`. -/
def pageB : PageResult :=
  buildPageResult tokB "http://b" { title := "", h1 := "", h2 := "", body := "い" }

/-! ## The scaled percentages agree with exact decimal rounding -/

theorem pct2_spec (c len : Nat) (h : 0 < len) :
    ((pct2 c len : ℕ) : ℚ) / 100 = round2 ((c : ℚ) / (len : ℚ) * 100) := by
  have h1 : round ((c : ℚ) / (len : ℚ) * 100 * 100)
      = ⌊((20000 * c + len : ℕ) : ℚ) / ((2 * len : ℕ) : ℚ)⌋ := by
    have hl : (len : ℚ) ≠ 0 := Nat.cast_ne_zero.mpr h.ne'
    rw [round_eq]
    congr 1
    push_cast
    field_simp
    ring
  have hq : (0 : ℚ) ≤ ((20000 * c + len : ℕ) : ℚ) / ((2 * len : ℕ) : ℚ) := by positivity
  have hnf : ⌊(((20000 * c + len : ℕ) : ℚ) / ((2 * len : ℕ) : ℚ))⌋₊
      = (20000 * c + len) / (2 * len) := by
    rw [Nat.floor_div_nat ((20000 * c + len : ℕ) : ℚ) (2 * len), Nat.floor_natCast]
  have h2 : ⌊((20000 * c + len : ℕ) : ℚ) / ((2 * len : ℕ) : ℚ)⌋
      = (((20000 * c + len) / (2 * len) : ℕ) : ℤ) := by
    rw [← hnf, ← Int.floor_toNat, Int.toNat_of_nonneg (Int.floor_nonneg.mpr hq)]
  rw [round2, h1, h2, pct2]
  rw [Int.cast_natCast]

theorem pct1_spec (n den : Nat) (h : 0 < den) :
    ((pct1 n den : ℕ) : ℚ) / 10 = round1 ((n : ℚ) / (den : ℚ) * 100) := by
  have h1 : round ((n : ℚ) / (den : ℚ) * 100 * 10)
      = ⌊((2000 * n + den : ℕ) : ℚ) / ((2 * den : ℕ) : ℚ)⌋ := by
    have hl : (den : ℚ) ≠ 0 := Nat.cast_ne_zero.mpr h.ne'
    rw [round_eq]
    congr 1
    push_cast
    field_simp
    ring
  have hq : (0 : ℚ) ≤ ((2000 * n + den : ℕ) : ℚ) / ((2 * den : ℕ) : ℚ) := by positivity
  have hnf : ⌊(((2000 * n + den : ℕ) : ℚ) / ((2 * den : ℕ) : ℚ))⌋₊
      = (2000 * n + den) / (2 * den) := by
    rw [Nat.floor_div_nat ((2000 * n + den : ℕ) : ℚ) (2 * den), Nat.floor_natCast]
  have h2 : ⌊((2000 * n + den : ℕ) : ℚ) / ((2 * den : ℕ) : ℚ)⌋
      = (((2000 * n + den) / (2 * den) : ℕ) : ℤ) := by
    rw [← hnf, ← Int.floor_toNat, Int.toNat_of_nonneg (Int.floor_nonneg.mpr hq)]
  rw [round1, h1, h2, pct1]
  rw [Int.cast_natCast]

/-! ## Dictionary lemmas -/

theorem mem_keys_upsert {V : Type} (k : String) (d : V) (f : V → V)
    (m : List (String × V)) (x : String) :
    x ∈ (upsert k d f m).map Prod.fst ↔ x ∈ m.map Prod.fst ∨ x = k := by
  induction m with
  | nil => simp [upsert]
  | cons p rest ih =>
    obtain ⟨k', v⟩ := p
    by_cases h : k' = k
    · subst h
      simp [upsert]
      tauto
    · simp [upsert, h, ih]
      tauto

theorem keys_upsert {V : Type} (k : String) (d : V) (f : V → V) (m : List (String × V)) :
    (upsert k d f m).map Prod.fst =
      if k ∈ m.map Prod.fst then m.map Prod.fst else m.map Prod.fst ++ [k] := by
  induction m with
  | nil => simp [upsert]
  | cons p rest ih =>
    obtain ⟨k', v⟩ := p
    by_cases h : k' = k
    · subst h
      simp [upsert]
    · have hne : ¬ (k = k') := fun he => h he.symm
      simp only [upsert, if_neg h, List.map_cons, List.mem_cons]
      rw [ih]
      by_cases hk : k ∈ rest.map Prod.fst
      · simp [hk, hne]
      · simp [hk, hne]

theorem nodup_keys_upsert {V : Type} (k : String) (d : V) (f : V → V)
    (m : List (String × V)) (h : (m.map Prod.fst).Nodup) :
    ((upsert k d f m).map Prod.fst).Nodup := by
  rw [keys_upsert]
  by_cases hk : k ∈ m.map Prod.fst
  · simpa [hk]
  · simpa [hk, List.nodup_append] using h

/-- Generic key-membership lemma for folds whose step adds keys described by
`P` to a string-keyed dictionary. -/
theorem keys_foldl_iff {α V : Type} (f : List (String × V) → α → List (String × V))
    (P : α → String → Prop)
    (hf : ∀ m a x, x ∈ (f m a).map Prod.fst ↔ x ∈ m.map Prod.fst ∨ P a x) :
    ∀ (l : List α) (m : List (String × V)) (x : String),
      x ∈ (l.foldl f m).map Prod.fst ↔ x ∈ m.map Prod.fst ∨ ∃ a ∈ l, P a x := by
  intro l
  induction l with
  | nil => simp
  | cons a l ih =>
    intro m x
    simp only [List.foldl_cons]
    rw [ih, hf]
    simp only [List.mem_cons]
    constructor
    · rintro ((h | h) | ⟨b, hb, h⟩)
      · exact Or.inl h
      · exact Or.inr ⟨a, Or.inl rfl, h⟩
      · exact Or.inr ⟨b, Or.inr hb, h⟩
    · rintro (h | ⟨b, (rfl | hb), h⟩)
      · exact Or.inl (Or.inl h)
      · exact Or.inl (Or.inr h)
      · exact Or.inr ⟨b, hb, h⟩

theorem mem_keys_buildWordFreq (tokens : List Token) (x : String) :
    x ∈ (buildWordFreq tokens).map Prod.fst ↔
      ∃ t ∈ tokens, isCountedNoun t ∧ t.surface = x := by
  have h := keys_foldl_iff
    (fun m t => if isCountedNoun t then upsert t.surface 0 (· + 1) m else m)
    (fun t x => isCountedNoun t ∧ t.surface = x)
    (by
      intro m t x
      dsimp only
      by_cases hc : isCountedNoun t
      · rw [if_pos hc, mem_keys_upsert]
        simp [hc, eq_comm]
      · simp [hc])
    tokens [] x
  simpa [buildWordFreq] using h

theorem mem_keys_aggWordFreq (results : List PageResult) (x : String) :
    x ∈ (aggWordFreq results).map Prod.fst ↔
      ∃ r ∈ results, ∃ t ∈ r.tokens, isCountedNoun t ∧ t.surface = x := by
  have h := keys_foldl_iff
    (fun m r => r.tokens.foldl
      (fun m' t => if isCountedNoun t then bumpWord m' t.surface r.url 1 else m') m)
    (fun r x => ∃ t ∈ r.tokens, isCountedNoun t ∧ t.surface = x)
    (by
      intro m r x
      have hin := keys_foldl_iff
        (fun m' t => if isCountedNoun t then bumpWord m' t.surface r.url 1 else m')
        (fun t x => isCountedNoun t ∧ t.surface = x)
        (by
          intro m' t x
          dsimp only
          by_cases hc : isCountedNoun t
          · rw [if_pos hc]
            simp only [bumpWord]
            rw [mem_keys_upsert]
            simp [hc, eq_comm]
          · simp [hc])
        r.tokens m x
      exact hin)
    results [] x
  simpa [aggWordFreq] using h

theorem mem_keys_tagWordFreq (results : List PageResult) (tag : Tag) (x : String) :
    x ∈ (tagWordFreq results tag).map Prod.fst ↔
      ∃ r ∈ results, ∃ w ∈ (r.byTag tag).summary.topWords, w.word = x := by
  have h := keys_foldl_iff
    (fun m r => (r.byTag tag).summary.topWords.foldl
      (fun m' w => bumpWord m' w.word r.url w.count) m)
    (fun r x => ∃ w ∈ (r.byTag tag).summary.topWords, w.word = x)
    (by
      intro m r x
      have hin := keys_foldl_iff
        (fun m' w => bumpWord m' w.word r.url w.count)
        (fun w x => w.word = x)
        (by
          intro m' w x
          dsimp only
          simp only [bumpWord]
          rw [mem_keys_upsert]
          simp [eq_comm])
        (r.byTag tag).summary.topWords m x
      exact hin)
    results [] x
  simpa [tagWordFreq] using h

theorem getWord_bumpWord_count (m : List (String × WordAgg)) (k u : String) (c : Nat)
    (k' : String) :
    (getWord (bumpWord m k u c) k').count =
      (getWord m k').count + (if k' = k then c else 0) := by
  induction m with
  | nil =>
    simp only [bumpWord, upsert]
    by_cases h : k' = k
    · subst h
      simp [getWord]
    · have hne : ¬ (k = k') := fun he => h he.symm
      simp only [getWord, if_neg hne, if_neg h]
  | cons p rest ih =>
    obtain ⟨a, v⟩ := p
    by_cases ha : a = k
    · subst ha
      by_cases h : a = k'
      · subst h
        simp [getWord, bumpWord, upsert]
      · have hne : ¬ (k' = a) := fun he => h he.symm
        simp [getWord, bumpWord, upsert, h, hne]
    · simp only [bumpWord, upsert, if_neg ha] at ih ⊢
      by_cases h : a = k'
      · subst h
        have hne : ¬ (a = k) := ha
        simp only [getWord, if_pos rfl, if_neg (fun he : a = k => ha he)]
        simp
      · simp only [getWord, if_neg h]
        exact ih

theorem getWord_topWordsFold (url : String) (tws : List TopWord) (k : String) :
    ∀ m : List (String × WordAgg),
      (getWord (tws.foldl (fun m' w => bumpWord m' w.word url w.count) m) k).count =
        (getWord m k).count + ((tws.filter (fun w => w.word == k)).map TopWord.count).sum := by
  induction tws with
  | nil => simp
  | cons w tws ih =>
    intro m
    simp only [List.foldl_cons]
    rw [ih]
    rw [getWord_bumpWord_count]
    by_cases h : w.word = k
    · rw [if_pos h.symm, List.filter_cons_of_pos (by simp [h])]
      simp only [List.map_cons, List.sum_cons]
      omega
    · have hne : ¬ (k = w.word) := fun he => h he.symm
      rw [if_neg hne, List.filter_cons_of_neg (by simp [h])]
      omega

theorem getWord_tagWordFreq (results : List PageResult) (tag : Tag) (k : String) :
    (getWord (tagWordFreq results tag) k).count =
      (results.map (fun r =>
        (((r.byTag tag).summary.topWords.filter (fun w => w.word == k)).map
          TopWord.count).sum)).sum := by
  have main : ∀ (rs : List PageResult) (m : List (String × WordAgg)),
      (getWord (rs.foldl (fun m r => (r.byTag tag).summary.topWords.foldl
        (fun m' w => bumpWord m' w.word r.url w.count) m) m) k).count =
      (getWord m k).count + (rs.map (fun r =>
        (((r.byTag tag).summary.topWords.filter (fun w => w.word == k)).map
          TopWord.count).sum)).sum := by
    intro rs
    induction rs with
    | nil => simp
    | cons r rs ih =>
      intro m
      simp only [List.foldl_cons, List.map_cons, List.sum_cons]
      rw [ih, getWord_topWordsFold]
      omega
  have h := main results []
  simpa [tagWordFreq, getWord] using h

theorem nodup_keys_bumpWord (m : List (String × WordAgg)) (k u : String) (c : Nat)
    (h : (m.map Prod.fst).Nodup) : ((bumpWord m k u c).map Prod.fst).Nodup := by
  simp only [bumpWord]
  exact nodup_keys_upsert _ _ _ _ h

theorem nodup_keys_tagWordFreq (results : List PageResult) (tag : Tag) :
    ((tagWordFreq results tag).map Prod.fst).Nodup := by
  have inner : ∀ (tws : List TopWord) (url : String) (m : List (String × WordAgg)),
      (m.map Prod.fst).Nodup →
      ((tws.foldl (fun m' w => bumpWord m' w.word url w.count) m).map Prod.fst).Nodup := by
    intro tws
    induction tws with
    | nil => intro url m h; simpa using h
    | cons w tws ih =>
      intro url m h
      simp only [List.foldl_cons]
      exact ih url _ (nodup_keys_bumpWord _ _ _ _ h)
  have outer : ∀ (rs : List PageResult) (m : List (String × WordAgg)),
      (m.map Prod.fst).Nodup →
      ((rs.foldl (fun m r => (r.byTag tag).summary.topWords.foldl
        (fun m' w => bumpWord m' w.word r.url w.count) m) m).map Prod.fst).Nodup := by
    intro rs
    induction rs with
    | nil => intro m h; simpa using h
    | cons r rs ih =>
      intro m h
      simp only [List.foldl_cons]
      exact ih _ (inner _ _ _ h)
  simpa [tagWordFreq] using outer results [] (by simp)

/-- In a dictionary with duplicate-free keys, every stored entry is what
`getWord` reads out. -/
theorem getWord_of_mem (m : List (String × WordAgg)) (p : String × WordAgg)
    (hn : (m.map Prod.fst).Nodup) (hp : p ∈ m) : getWord m p.1 = p.2 := by
  induction m with
  | nil => cases hp
  | cons q rest ih =>
    rcases List.mem_cons.mp hp with rfl | hmem
    · simp [getWord]
    · have hq : q.1 ≠ p.1 := by
        intro he
        have : p.1 ∈ rest.map Prod.fst := List.mem_map.mpr ⟨p, hmem, rfl⟩
        rw [List.map_cons, List.nodup_cons] at hn
        exact hn.1 (he ▸ this)
      have hn' : (rest.map Prod.fst).Nodup := by
        rw [List.map_cons, List.nodup_cons] at hn
        exact hn.2
      simp only [getWord, if_neg hq]
      exact ih hn' hmem

/-! ## Ranked-list lemmas: sort, cap, decorate -/

theorem mem_take_sort_map {α β : Type} (r : α → α → Prop) [DecidableRel r]
    (l : List α) (n : Nat) (f : α → β) (e : β)
    (he : e ∈ ((List.insertionSort r l).take n).map f) : ∃ p ∈ l, e = f p := by
  obtain ⟨p, hp, rfl⟩ := List.mem_map.mp he
  have hp' : p ∈ List.insertionSort r l := List.mem_of_mem_take hp
  exact ⟨p, (List.perm_insertionSort r l).mem_iff.mp hp', rfl⟩

theorem length_take_sort_map {α β : Type} (r : α → α → Prop) [DecidableRel r]
    (l : List α) (n : Nat) (f : α → β) :
    (((List.insertionSort r l).take n).map f).length ≤ n := by
  simp [List.length_take]

theorem pairwise_take_sort_map {α β : Type} (r : α → α → Prop) [DecidableRel r]
    [IsTotal α r] [IsTrans α r] (S : β → β → Prop) (l : List α) (n : Nat) (f : α → β)
    (hrS : ∀ a b, r a b → S (f a) (f b)) :
    (((List.insertionSort r l).take n).map f).Pairwise S := by
  have hs : (List.insertionSort r l).Pairwise r := List.sorted_insertionSort r l
  have ht : ((List.insertionSort r l).take n).Pairwise r :=
    hs.sublist (List.take_sublist n _)
  exact List.pairwise_map.mpr (ht.imp (fun h => hrS _ _ h))

/-! ## Emptiness, totals and loop-shape lemmas -/

theorem buildWordFreq_nil : buildWordFreq [] = [] := rfl

theorem topWords_of_tokens_nil (L : Nat) : (generateSummary [] L).topWords = [] := rfl

theorem aggWordFreq_of_all_tokens_nil (results : List PageResult)
    (h : ∀ r ∈ results, r.tokens = []) : aggWordFreq results = [] := by
  have main : ∀ rs : List PageResult, (∀ r ∈ rs, r.tokens = []) →
      ∀ m, rs.foldl (fun m r => r.tokens.foldl
        (fun m' t => if isCountedNoun t then bumpWord m' t.surface r.url 1 else m') m) m = m := by
    intro rs
    induction rs with
    | nil => intro _ m; rfl
    | cons r rs ih =>
      intro hall m
      simp only [List.foldl_cons]
      rw [hall r (List.mem_cons_self r rs), List.foldl_nil]
      exact ih (fun x hx => hall x (List.mem_cons_of_mem r hx)) m
  simpa [aggWordFreq] using main results h []

theorem totalTextLen_eq_sum (results : List PageResult) :
    totalTextLen results = (results.map PageResult.textLength).sum := by
  have main : ∀ (rs : List PageResult) (n : Nat),
      rs.foldl (fun acc r => acc + r.textLength) n = n + (rs.map PageResult.textLength).sum := by
    intro rs
    induction rs with
    | nil => intro n; simp
    | cons r rs ih =>
      intro n
      simp only [List.foldl_cons, List.map_cons, List.sum_cons]
      rw [ih]
      omega
  simpa [totalTextLen] using main results 0

theorem textLength_zero_of_totalTextLen_zero (results : List PageResult)
    (h : totalTextLen results = 0) : ∀ r ∈ results, r.textLength = 0 := by
  rw [totalTextLen_eq_sum] at h
  intro r hr
  have := (List.sum_eq_zero_iff).mp h r.textLength (List.mem_map.mpr ⟨r, hr, rfl⟩)
  exact this

theorem multiStep_lengths (fetch : String → Except String PageData)
    (tokenize : String → List Token) (acc : List PageResult × List UrlError)
    (rawUrl : String) :
    (multiStep fetch tokenize acc rawUrl).1.length + (multiStep fetch tokenize acc rawUrl).2.length
      = acc.1.length + acc.2.length + 1 := by
  simp only [multiStep]
  by_cases h : hasHttpScheme (trimStr rawUrl)
  · simp only [h]
    cases hf : fetch (trimStr rawUrl) with
    | error msg =>
      simp only [hf, not_true, if_neg, ite_false, List.length_append, List.length_cons,
        List.length_nil, Bool.not_eq_true]
      simp
      omega
    | ok pd =>
      simp only [hf]
      simp
      omega
  · simp only [h]
    simp
    omega

theorem processUrls_lengths (fetch : String → Except String PageData)
    (tokenize : String → List Token) (urls : List String) :
    (processUrls fetch tokenize urls).1.length + (processUrls fetch tokenize urls).2.length
      = urls.length := by
  have main : ∀ (us : List String) (acc : List PageResult × List UrlError),
      (us.foldl (multiStep fetch tokenize) acc).1.length
        + (us.foldl (multiStep fetch tokenize) acc).2.length
        = acc.1.length + acc.2.length + us.length := by
    intro us
    induction us with
    | nil => intro acc; simp
    | cons u us ih =>
      intro acc
      simp only [List.foldl_cons, List.length_cons]
      rw [ih]
      have := multiStep_lengths fetch tokenize acc u
      omega
  simpa [processUrls] using main urls ([], [])

theorem processUrls_all_fail (fetch : String → Except String PageData)
    (tokenize : String → List Token) (urls : List String)
    (h : ∀ u ∈ urls, ¬ hasHttpScheme (trimStr u) ∨ ∃ m, fetch (trimStr u) = .error m) :
    (processUrls fetch tokenize urls).1 = [] := by
  have main : ∀ (us : List String),
      (∀ u ∈ us, ¬ hasHttpScheme (trimStr u) ∨ ∃ m, fetch (trimStr u) = .error m) →
      ∀ acc : List PageResult × List UrlError,
      (us.foldl (multiStep fetch tokenize) acc).1 = acc.1 := by
    intro us
    induction us with
    | nil => intro _ acc; rfl
    | cons u us ih =>
      intro hall acc
      simp only [List.foldl_cons]
      rw [ih (fun x hx => hall x (List.mem_cons_of_mem u hx))]
      rcases hall u (List.mem_cons_self u us) with hbad | ⟨m, hm⟩
      · simp [multiStep, hbad]
      · by_cases hs : hasHttpScheme (trimStr u)
        · simp [multiStep, hs, hm]
        · simp [multiStep, hs]
  simpa [processUrls] using main urls h ([], [])

theorem byTag_topWords_eq (results : List PageResult) (tag : Tag) :
    ((generateAggregatedSummary results).byTag tag).topWords =
      generateTagTopWords results tag := by
  cases tag <;> rfl

theorem byTag_totalTextLength_eq (results : List PageResult) (tag : Tag) :
    ((generateAggregatedSummary results).byTag tag).totalTextLength =
      tagTextLen results tag := by
  cases tag <;> rfl

/-! ## The claims -/

/-- C1: for every token sequence and every `textLength > 0`, the topWords of
`generateSummary` contains only words coming from tokens with part-of-speech
exactly 名詞 (the coarse noun tag) and surface form longer than 1 character;
it has length at most 10, is sorted by non-increasing count, and every entry
has `totalChars = word.length * count` and
`percentage = round(totalChars / textLength * 100, 2 decimals)`. -/
theorem claim_C1 (tokens : List Token) (L : Nat) (hL : 0 < L) :
    (generateSummary tokens L).topWords.length ≤ 10 ∧
    ((generateSummary tokens L).topWords.Pairwise fun a b => b.count ≤ a.count) ∧
    ∀ e ∈ (generateSummary tokens L).topWords,
      (∃ t ∈ tokens, t.pos = "名詞" ∧ 1 < t.surface.length ∧ t.surface = e.word) ∧
      e.totalChars = e.word.length * e.count ∧
      (e.percentage : ℚ) / 100 = round2 ((e.totalChars : ℚ) / (L : ℚ) * 100) := by
  refine ⟨length_take_sort_map countGE (buildWordFreq tokens) 10 _,
    pairwise_take_sort_map countGE _ (buildWordFreq tokens) 10 _ (fun a b h => h),
    ?_⟩
  intro e he
  obtain ⟨p, hp, rfl⟩ := mem_take_sort_map countGE (buildWordFreq tokens) 10 _ e he
  refine ⟨?_, rfl, pct2_spec _ L hL⟩
  have hkey : p.1 ∈ (buildWordFreq tokens).map Prod.fst := List.mem_map.mpr ⟨p, hp, rfl⟩
  obtain ⟨t, ht, hnoun, hsurf⟩ := (mem_keys_buildWordFreq tokens p.1).mp hkey
  have hparts : t.pos = "名詞" ∧ 1 < t.surface.length := by
    simpa [isCountedNoun] using hnoun
  exact ⟨t, ht, hparts.1, hparts.2, hsurf⟩

theorem claim_C1_witness :
    (generateSummary [nounTok "解析"] 4).topWords.length ≤ 10 ∧
    ((generateSummary [nounTok "解析"] 4).topWords.Pairwise fun a b => b.count ≤ a.count) ∧
    ∀ e ∈ (generateSummary [nounTok "解析"] 4).topWords,
      (∃ t ∈ [nounTok "解析"], t.pos = "名詞" ∧ 1 < t.surface.length ∧ t.surface = e.word) ∧
      e.totalChars = e.word.length * e.count ∧
      (e.percentage : ℚ) / 100 = round2 ((e.totalChars : ℚ) / ((4 : Nat) : ℚ) * 100) :=
  claim_C1 [nounTok "解析"] 4 (by decide)

/-- C2: for every non-empty list of page results, the overall aggregated
topWords is ranked by descending distinct-URL-set size with ties broken by
descending count, is capped at 20 entries, and every kept entry's
`sitePercentage` equals `round(siteCount / pageCount * 100, 1 decimal)`. -/
theorem claim_C2 (results : List PageResult) (hne : results ≠ []) :
    (generateAggregatedSummary results).topWords.length ≤ 20 ∧
    ((generateAggregatedSummary results).topWords.Pairwise fun a b =>
      b.siteCount < a.siteCount ∨ (b.siteCount = a.siteCount ∧ b.count ≤ a.count)) ∧
    ∀ e ∈ (generateAggregatedSummary results).topWords,
      (e.sitePercentage : ℚ) / 10 = round1 ((e.siteCount : ℚ) / (results.length : ℚ) * 100) := by
  refine ⟨length_take_sort_map siteCountGE (aggWordFreq results) 20 _,
    pairwise_take_sort_map siteCountGE _ (aggWordFreq results) 20 _ (fun a b h => h),
    ?_⟩
  intro e he
  obtain ⟨p, hp, rfl⟩ := mem_take_sort_map siteCountGE (aggWordFreq results) 20 _ e he
  exact pct1_spec _ results.length (List.length_pos.mpr hne)

theorem claim_C2_witness :
    (generateAggregatedSummary [pageW]).topWords.length ≤ 20 ∧
    ((generateAggregatedSummary [pageW]).topWords.Pairwise fun a b =>
      b.siteCount < a.siteCount ∨ (b.siteCount = a.siteCount ∧ b.count ≤ a.count)) ∧
    ∀ e ∈ (generateAggregatedSummary [pageW]).topWords,
      (e.sitePercentage : ℚ) / 10
        = round1 ((e.siteCount : ℚ) / (([pageW] : List PageResult).length : ℚ) * 100) :=
  claim_C2 [pageW] (by simp)

/-- C3: the per-region aggregation draws its candidate words only from each
page's already-computed per-region topWords list, summing the counts recorded
in those entries; a word absent from every page's regional topWords never
appears in the regional aggregate; the overall aggregation instead re-derives
word frequencies from the full per-page token lists. -/
theorem claim_C3 (results : List PageResult) (tag : Tag) :
    (∀ e ∈ ((generateAggregatedSummary results).byTag tag).topWords,
      (∃ r ∈ results, ∃ w ∈ (r.byTag tag).summary.topWords, w.word = e.word) ∧
      e.count = (results.map (fun r =>
        (((r.byTag tag).summary.topWords.filter (fun w => w.word == e.word)).map
          TopWord.count).sum)).sum) ∧
    (∀ x : String, (∀ r ∈ results, ∀ w ∈ (r.byTag tag).summary.topWords, w.word ≠ x) →
      ∀ e ∈ ((generateAggregatedSummary results).byTag tag).topWords, e.word ≠ x) ∧
    (∀ e ∈ (generateAggregatedSummary results).topWords,
      ∃ r ∈ results, ∃ t ∈ r.tokens, t.pos = "名詞" ∧ 1 < t.surface.length ∧
        t.surface = e.word) := by
  have hsrc : ∀ e ∈ ((generateAggregatedSummary results).byTag tag).topWords,
      (∃ r ∈ results, ∃ w ∈ (r.byTag tag).summary.topWords, w.word = e.word) ∧
      e.count = (results.map (fun r =>
        (((r.byTag tag).summary.topWords.filter (fun w => w.word == e.word)).map
          TopWord.count).sum)).sum := by
    intro e he
    rw [byTag_topWords_eq] at he
    obtain ⟨p, hp, rfl⟩ := mem_take_sort_map siteCountGE (tagWordFreq results tag) 20 _ e he
    constructor
    · have hkey : p.1 ∈ (tagWordFreq results tag).map Prod.fst :=
        List.mem_map.mpr ⟨p, hp, rfl⟩
      exact (mem_keys_tagWordFreq results tag p.1).mp hkey
    · have hget : getWord (tagWordFreq results tag) p.1 = p.2 :=
        getWord_of_mem _ p (nodup_keys_tagWordFreq results tag) hp
      have := getWord_tagWordFreq results tag p.1
      rw [hget] at this
      exact this
  refine ⟨hsrc, ?_, ?_⟩
  · intro x hx e he hex
    obtain ⟨⟨r, hr, w, hw, hww⟩, -⟩ := hsrc e he
    exact hx r hr w hw (hww.trans hex)
  · intro e he
    obtain ⟨p, hp, rfl⟩ := mem_take_sort_map siteCountGE (aggWordFreq results) 20 _ e he
    have hkey : p.1 ∈ (aggWordFreq results).map Prod.fst := List.mem_map.mpr ⟨p, hp, rfl⟩
    obtain ⟨r, hr, t, ht, hnoun, hsurf⟩ := (mem_keys_aggWordFreq results p.1).mp hkey
    have hparts : t.pos = "名詞" ∧ 1 < t.surface.length := by
      simpa [isCountedNoun] using hnoun
    exact ⟨r, hr, t, ht, hparts.1, hparts.2, hsurf⟩

theorem claim_C3_witness :
    (∃ r ∈ [pageW], ∃ w ∈ (r.byTag Tag.title).summary.topWords, w.word = aggWordW.word) ∧
    aggWordW.count = (([pageW] : List PageResult).map (fun r =>
      (((r.byTag Tag.title).summary.topWords.filter (fun w => w.word == aggWordW.word)).map
        TopWord.count).sum)).sum :=
  (claim_C3 [pageW] Tag.title).1 aggWordW (by decide)

/-- C4 (code bug): at a single-URL request whose page body tokenizes to 101
tokens, the handler returns all 101 tokens in `tokens` — there is no
`slice(0, 100)` in the handler, although the repository README documents one —
while `tokenCount` and the summary are indeed computed over the same full
list. -/
theorem claim_C4_code_bug :
    ∃ r : PageResult, analyze capFetch capTokenize (some "http://example.com") = .ok r ∧
      r.tokens.length = 101 ∧ 100 < r.tokens.length ∧
      r.tokenCount = r.tokens.length ∧
      r.summary = generateSummary r.tokens r.textLength := by
  refine ⟨_, rfl, by decide, by decide, by decide, rfl⟩

/-- C5 counterexample: for empty text the summary returned by `analyzeTag` is
`{ topWords: [] }` with no `posCount` key at all, so it does not equal
`{posCount: {}, topWords: []}`. -/
theorem claim_C5_counterexample :
    (analyzeTag (fun _ => []) "").summary ≠ { posCount := some [], topWords := [] } := by
  decide

/-- C5 (amended): for every region whose cleaned text is the empty string,
`analyzeTag` returns `{ tokens: [], summary: { topWords: [] } }` — the
summary has an empty topWords list and *omits* `posCount` (rather than
binding it to an empty mapping) — and tokenization is not invoked (the
result does not depend on the tokenizer). -/
theorem claim_C5_amended (tokenize tokenize' : String → List Token) (text : String)
    (h : text = "") :
    analyzeTag tokenize text =
      { tokens := [], summary := { posCount := none, topWords := [] } } ∧
    analyzeTag tokenize text = analyzeTag tokenize' text := by
  subst h
  exact ⟨rfl, rfl⟩

/-- C5 witness: the amended statement at a concrete tokenizer pair. -/
theorem claim_C5_witness :
    analyzeTag tokenizeW "" =
      { tokens := [], summary := { posCount := none, topWords := [] } } ∧
    analyzeTag tokenizeW "" = analyzeTag (fun _ => []) "" :=
  claim_C5_amended tokenizeW (fun _ => []) "" rfl

/-- C6: every percentage in the pipeline equals
`round(totalChars / totalTextLength * 100)` to its fixed number of decimals
(2 for character percentages, 1 for page coverage), and a zero denominator
yields 0.00 rather than a division by zero: in the per-text summary and the
overall aggregate the coupling `length 0 → no tokens` (true of the pipeline,
where the counted text is the tokenized text) makes entries with a zero
denominator impossible, and the per-region aggregate's explicit guard
returns 0.00 when the region's summed length is zero; the per-region
`sitePercentage` likewise equals `round(siteCount / pageCount * 100)` to one
decimal, its denominator positive whenever an entry exists. -/
theorem claim_C6 :
    (∀ (tokens : List Token) (L : Nat), (L = 0 → tokens = []) →
      ∀ e ∈ (generateSummary tokens L).topWords,
        0 < L ∧ (e.percentage : ℚ) / 100 = round2 ((e.totalChars : ℚ) / (L : ℚ) * 100)) ∧
    (∀ results : List PageResult, (∀ r ∈ results, r.textLength = 0 → r.tokens = []) →
      ∀ e ∈ (generateAggregatedSummary results).topWords,
        0 < totalTextLen results ∧ 0 < results.length ∧
        (e.percentage : ℚ) / 100
          = round2 ((e.totalChars : ℚ) / (totalTextLen results : ℚ) * 100) ∧
        (e.sitePercentage : ℚ) / 10
          = round1 ((e.siteCount : ℚ) / (results.length : ℚ) * 100)) ∧
    (∀ (results : List PageResult) (tag : Tag),
      ∀ e ∈ ((generateAggregatedSummary results).byTag tag).topWords,
        (0 < tagTextLen results tag →
          (e.percentage : ℚ) / 100
            = round2 ((e.totalChars : ℚ) / (tagTextLen results tag : ℚ) * 100)) ∧
        (tagTextLen results tag = 0 → e.percentage = 0) ∧
        0 < results.length ∧
        (e.sitePercentage : ℚ) / 10
          = round1 ((e.siteCount : ℚ) / (results.length : ℚ) * 100)) := by
  refine ⟨?_, ?_, ?_⟩
  · intro tokens L hcoup e he
    rcases Nat.eq_zero_or_pos L with hL | hL
    · rw [hcoup hL] at he
      rw [topWords_of_tokens_nil] at he
      cases he
    · refine ⟨hL, ?_⟩
      obtain ⟨p, hp, rfl⟩ := mem_take_sort_map countGE (buildWordFreq tokens) 10 _ e he
      exact pct2_spec _ L hL
  · intro results hcoup e he
    have hne : aggWordFreq results ≠ [] := by
      intro hempty
      have : (generateAggregatedSummary results).topWords = [] := by
        show aggTopWords results = []
        rw [aggTopWords, hempty]
        rfl
      rw [this] at he
      cases he
    have hlen : 0 < results.length := by
      rcases results with _ | ⟨r, rs⟩
      · exact absurd rfl hne
      · simp
    have htot : 0 < totalTextLen results := by
      rcases Nat.eq_zero_or_pos (totalTextLen results) with h0 | h0
      · exfalso
        apply hne
        apply aggWordFreq_of_all_tokens_nil
        intro r hr
        exact hcoup r hr (textLength_zero_of_totalTextLen_zero results h0 r hr)
      · exact h0
    obtain ⟨p, hp, rfl⟩ := mem_take_sort_map siteCountGE (aggWordFreq results) 20 _ e he
    exact ⟨htot, hlen, pct2_spec _ _ htot, pct1_spec _ _ hlen⟩
  · intro results tag e he
    rw [byTag_topWords_eq] at he
    have hlen : 0 < results.length := by
      rcases results with _ | ⟨r, rs⟩
      · cases he
      · simp
    obtain ⟨p, hp, rfl⟩ := mem_take_sort_map siteCountGE (tagWordFreq results tag) 20 _ e he
    refine ⟨?_, ?_, hlen, pct1_spec _ _ hlen⟩
    · intro hpos
      show ((if 0 < tagTextLen results tag then
          pct2 (p.1.length * p.2.count) (tagTextLen results tag) else 0 : ℕ) : ℚ) / 100 = _
      rw [if_pos hpos]
      exact pct2_spec _ _ hpos
    · intro h0
      show (if 0 < tagTextLen results tag then
          pct2 (p.1.length * p.2.count) (tagTextLen results tag) else 0) = 0
      rw [if_neg (by omega)]

/-- C6 witness: the per-text part at one noun token over a 4-character text,
and the per-region part (character percentage, zero-guard, and regional
sitePercentage) at the concrete aggregate entry of `[pageW]`. -/
theorem claim_C6_witness :
    (0 < 4 ∧ ((topWordW.percentage : ℚ) / 100
      = round2 ((topWordW.totalChars : ℚ) / ((4 : Nat) : ℚ) * 100))) ∧
    ((0 < tagTextLen [pageW] Tag.title →
        (aggWordW.percentage : ℚ) / 100
          = round2 ((aggWordW.totalChars : ℚ) / (tagTextLen [pageW] Tag.title : ℚ) * 100)) ∧
      (tagTextLen [pageW] Tag.title = 0 → aggWordW.percentage = 0) ∧
      0 < ([pageW] : List PageResult).length ∧
      (aggWordW.sitePercentage : ℚ) / 10
        = round1 ((aggWordW.siteCount : ℚ) / (([pageW] : List PageResult).length : ℚ) * 100)) :=
  ⟨claim_C6.1 [nounTok "解析"] 4 (by decide) topWordW (by decide),
   claim_C6.2.2 [pageW] Tag.title aggWordW (by decide)⟩

/-- C7: for every multi-URL batch that passes list-level validation, the
response satisfies `successCount + errorCount = N` and
`results.length = successCount` (and `errors.length = errorCount`,
`totalUrls = N`): every URL lands in exactly one of the two lists and no
failure aborts the batch. -/
theorem claim_C7 (fetch : String → Except String PageData)
    (tokenize : String → List Token) (urls : List String)
    (h1 : urls ≠ []) (h2 : urls.length ≤ 20) :
    ∃ resp, analyzeMultiple fetch tokenize (.arr urls) = .ok resp ∧
      resp.successCount + resp.errorCount = urls.length ∧
      resp.results.length = resp.successCount ∧
      resp.errors.length = resp.errorCount ∧
      resp.totalUrls = urls.length := by
  have hlen0 : ¬ (urls.length = 0) := by
    simpa [List.length_eq_zero] using h1
  have hle : ¬ (20 < urls.length) := by omega
  simp only [analyzeMultiple, if_neg hlen0, if_neg hle]
  exact ⟨_, rfl, processUrls_lengths fetch tokenize urls, rfl, rfl, rfl⟩

/-- C7 witness: a two-URL batch in which one URL fails the scheme check and
the other fails at fetch time. -/
theorem claim_C7_witness :
    ∃ resp, analyzeMultiple fetchErr tokenizeW (.arr ["http://a", "ftp://b"]) = .ok resp ∧
      resp.successCount + resp.errorCount = (["http://a", "ftp://b"] : List String).length ∧
      resp.results.length = resp.successCount ∧
      resp.errors.length = resp.errorCount ∧
      resp.totalUrls = (["http://a", "ftp://b"] : List String).length :=
  claim_C7 fetchErr tokenizeW ["http://a", "ftp://b"] (by decide) (by decide)

/-- C9: every request failing input validation is rejected with a 400 client
error before any fetch is attempted: the single-URL endpoint rejects a
missing or empty `url` and a `url` without an http(s) scheme, the multi-URL
endpoint rejects a missing, non-array, empty or over-20-entry `urls`; in
each case the response is independent of the fetch oracle (no fetch can have
been performed). -/
theorem claim_C9 (fetch fetch' : String → Except String PageData)
    (tokenize : String → List Token) :
    analyze fetch tokenize none = .badRequest "URLが指定されていません" ∧
    analyze fetch tokenize (some "") = .badRequest "URLが指定されていません" ∧
    (∀ url : String, url ≠ "" → ¬ hasHttpScheme url →
      analyze fetch tokenize (some url) = .badRequest "有効なURLを入力してください" ∧
      analyze fetch tokenize (some url) = analyze fetch' tokenize (some url)) ∧
    analyzeMultiple fetch tokenize .missing = .badRequest "URLリストが指定されていません" ∧
    analyzeMultiple fetch tokenize .notArray = .badRequest "URLリストが指定されていません" ∧
    analyzeMultiple fetch tokenize (.arr []) = .badRequest "URLリストが指定されていません" ∧
    (∀ urls : List String, 20 < urls.length →
      analyzeMultiple fetch tokenize (.arr urls) = .badRequest "URLは最大20件までです" ∧
      analyzeMultiple fetch tokenize (.arr urls) = analyzeMultiple fetch' tokenize (.arr urls)) := by
  refine ⟨rfl, rfl, ?_, rfl, rfl, rfl, ?_⟩
  · intro url hne hscheme
    constructor <;> simp [analyze, hne, hscheme]
  · intro urls hgt
    have h0 : ¬ (urls.length = 0) := by omega
    constructor <;> simp [analyzeMultiple, h0, hgt]

/-- C9 witness: an `ftp://` URL is rejected with 400 independently of the
fetch oracle. -/
theorem claim_C9_witness :
    analyze fetchErr tokenizeW (some "ftp://example.com")
      = .badRequest "有効なURLを入力してください" ∧
    analyze fetchErr tokenizeW (some "ftp://example.com")
      = analyze capFetch tokenizeW (some "ftp://example.com") :=
  (claim_C9 fetchErr capFetch tokenizeW).2.2.1 "ftp://example.com" (by decide) (by decide)

/-- C10: a multi-URL batch that passes list-level validation but in which
every URL fails (bad scheme or fetch error) still answers `success: true`,
with zero successes, and the aggregated summary computed over the empty
results list: `totalSites = 0`, `totalTextLength = 0`, empty overall
topWords and empty per-region topWords — with no division by zero. -/
theorem claim_C10 (fetch : String → Except String PageData)
    (tokenize : String → List Token) (urls : List String)
    (h1 : urls ≠ []) (h2 : urls.length ≤ 20)
    (hfail : ∀ u ∈ urls, ¬ hasHttpScheme (trimStr u) ∨ ∃ m, fetch (trimStr u) = .error m) :
    ∃ resp, analyzeMultiple fetch tokenize (.arr urls) = .ok resp ∧
      resp.success = true ∧
      resp.successCount = 0 ∧
      resp.results = [] ∧
      resp.errorCount = urls.length ∧
      resp.aggregatedSummary.totalSites = 0 ∧
      resp.aggregatedSummary.totalTextLength = 0 ∧
      resp.aggregatedSummary.topWords = [] ∧
      ∀ tag, (resp.aggregatedSummary.byTag tag).topWords = [] := by
  have hlen0 : ¬ (urls.length = 0) := by
    simpa [List.length_eq_zero] using h1
  have hle : ¬ (20 < urls.length) := by omega
  have hres : (processUrls fetch tokenize urls).1 = [] :=
    processUrls_all_fail fetch tokenize urls hfail
  have hcount := processUrls_lengths fetch tokenize urls
  simp only [analyzeMultiple, if_neg hlen0, if_neg hle]
  refine ⟨_, rfl, rfl, ?_, hres, ?_, ?_, ?_, ?_, ?_⟩
  · rw [hres]
    rfl
  · rw [hres] at hcount
    simpa using hcount
  · rw [hres]
    rfl
  · rw [hres]
    rfl
  · rw [hres]
    rfl
  · intro tag
    rw [hres]
    cases tag <;> rfl

/-- C10 witness: a batch of two URLs, one with a bad scheme and one whose
fetch fails. -/
theorem claim_C10_witness :
    ∃ resp, analyzeMultiple fetchErr tokenizeW (.arr ["ftp://a", "http://b"]) = .ok resp ∧
      resp.success = true ∧
      resp.successCount = 0 ∧
      resp.results = [] ∧
      resp.errorCount = (["ftp://a", "http://b"] : List String).length ∧
      resp.aggregatedSummary.totalSites = 0 ∧
      resp.aggregatedSummary.totalTextLength = 0 ∧
      resp.aggregatedSummary.topWords = [] ∧
      ∀ tag, (resp.aggregatedSummary.byTag tag).topWords = [] :=
  claim_C10 fetchErr tokenizeW ["ftp://a", "http://b"] (by decide) (by decide)
    (fun u _ => Or.inr ⟨"接続失敗", rfl⟩)

/-- When the top-20 cap does not bite, the words of the aggregated topWords
are exactly the qualifying noun surfaces of the input pages. -/
theorem mem_aggTopWords_words (results : List PageResult)
    (h20 : (aggWordFreq results).length ≤ 20) (w : String) :
    w ∈ (generateAggregatedSummary results).topWords.map AggWord.word ↔
      ∃ r ∈ results, ∃ t ∈ r.tokens, isCountedNoun t ∧ t.surface = w := by
  have hproj : (generateAggregatedSummary results).topWords = aggTopWords results := rfl
  have htake : (List.insertionSort siteCountGE (aggWordFreq results)).take 20
      = List.insertionSort siteCountGE (aggWordFreq results) :=
    List.take_of_length_le (by rw [List.length_insertionSort]; exact h20)
  rw [hproj, aggTopWords, htake, ← mem_keys_aggWordFreq results w]
  rw [List.map_map]
  constructor
  · intro hw
    obtain ⟨p, hp, hpe⟩ := List.mem_map.mp hw
    have hp' : p ∈ aggWordFreq results := (List.perm_insertionSort _ _).mem_iff.mp hp
    exact List.mem_map.mpr ⟨p, hp', hpe⟩
  · intro hw
    obtain ⟨p, hp, hpe⟩ := List.mem_map.mp hw
    have hp' : p ∈ List.insertionSort siteCountGE (aggWordFreq results) :=
      (List.perm_insertionSort _ _).mem_iff.mpr hp
    exact List.mem_map.mpr ⟨p, hp', hpe⟩

/-- C8 counterexample: with 21 distinct tied words (each count 1, each on one
site) the top-20 cap cuts at a tie, and the stable sort resolves the tie by
dictionary insertion order, which follows page order: the word `zz` of
`pageB` makes the cut when `pageB` comes first and misses it when `pageB`
comes last, so the *set* of aggregated topWords is not
permutation-invariant. -/
theorem claim_C8_counterexample :
    ([pageA, pageB] : List PageResult).Perm [pageB, pageA] ∧
    "zz" ∈ (generateAggregatedSummary [pageB, pageA]).topWords.map AggWord.word ∧
    "zz" ∉ (generateAggregatedSummary [pageA, pageB]).topWords.map AggWord.word := by
  refine ⟨List.Perm.swap pageB pageA [], by decide, by decide⟩

/-- C8 (amended): the set of words in the aggregated topWords is invariant
under permutation of the input page-result list *provided the number of
distinct qualifying words is at most 20*, so that the top-20 cap does not cut
into an insertion-order-resolved tie; and the displayed list is always sorted
by the tie-break of descending siteCount then descending count.  (With more
than 20 distinct words, ties at the cap boundary are resolved by insertion
order, which depends on page order — see the counterexample.) -/
theorem claim_C8_amended (results results' : List PageResult)
    (hperm : results.Perm results')
    (h20 : (aggWordFreq results).length ≤ 20)
    (h20' : (aggWordFreq results').length ≤ 20) :
    (∀ w : String,
      w ∈ (generateAggregatedSummary results).topWords.map AggWord.word ↔
      w ∈ (generateAggregatedSummary results').topWords.map AggWord.word) ∧
    ((generateAggregatedSummary results).topWords.Pairwise fun a b =>
      b.siteCount < a.siteCount ∨ (b.siteCount = a.siteCount ∧ b.count ≤ a.count)) := by
  constructor
  · intro w
    rw [mem_aggTopWords_words results h20 w, mem_aggTopWords_words results' h20' w]
    constructor
    · rintro ⟨r, hr, hrest⟩
      exact ⟨r, hperm.mem_iff.mp hr, hrest⟩
    · rintro ⟨r, hr, hrest⟩
      exact ⟨r, hperm.mem_iff.mpr hr, hrest⟩
  · exact pairwise_take_sort_map siteCountGE _ (aggWordFreq results) 20 _ (fun a b h => h)

/-- C8 witness: the amended statement on a concrete two-page swap with two
distinct words. -/
theorem claim_C8_witness :
    (∀ w : String,
      w ∈ (generateAggregatedSummary [pageW, pageB]).topWords.map AggWord.word ↔
      w ∈ (generateAggregatedSummary [pageB, pageW]).topWords.map AggWord.word) ∧
    ((generateAggregatedSummary [pageW, pageB]).topWords.Pairwise fun a b =>
      b.siteCount < a.siteCount ∨ (b.siteCount = a.siteCount ∧ b.count ≤ a.count)) :=
  claim_C8_amended [pageW, pageB] [pageB, pageW] (List.Perm.swap pageB pageW [])
    (by decide) (by decide)

end MorphAnalyzer
